import Mathlib

set_option autoImplicit false

namespace ExpenseMatch

/-! Shallow embedding of the expense-reconciliation core: the tabular
ingestor's header detection, the column-mapping normalizer, the receipt
intake pipeline, the reconciliation aggregator and the report exporter,
as implemented in src/app/page.tsx together with the match API route
in src/app/api/match/route.ts. -/

/-- Scalar value of one spreadsheet cell as produced by sheet_to_json:
a JS number, a JS string, or an empty slot (null / undefined / absent). -/
inductive Cell where
  | empty
  | num (q : ℚ)
  | str (s : String)
  deriving DecidableEq, Repr

/-- Base-10 value of a list of digit characters. -/
def digitsToNat (ds : List Char) : Nat :=
  ds.foldl (fun n c => 10 * n + (c.toNat - 48)) 0

/-- True when the list is one or more digit characters. -/
def allDigits1 (cs : List Char) : Bool :=
  !cs.isEmpty && cs.all Char.isDigit

/-- Recognizes an optionally signed nonempty digit run. -/
def signedDigitsOk : List Char → Bool
  | '+' :: r => allDigits1 r
  | '-' :: r => allDigits1 r
  | r => allDigits1 r

/-- Recognizes the tail after a decimal mantissa inside Number(s):
either nothing, or an exponent marker with signed digits, spanning the
rest of the string. -/
def expTailOk : List Char → Bool
  | [] => true
  | 'e' :: r => signedDigitsOk r
  | 'E' :: r => signedDigitsOk r
  | _ => false

/-- Recognizes an unsigned decimal mantissa followed by an optional
exponent, spanning the whole character list (the body of a JS
StrDecimalLiteral without its sign). -/
def decMantissaOk (cs : List Char) : Bool :=
  let intPart := cs.takeWhile Char.isDigit
  let rest := cs.dropWhile Char.isDigit
  match rest with
  | '.' :: r2 =>
      let frac := r2.takeWhile Char.isDigit
      let rest2 := r2.dropWhile Char.isDigit
      (!intPart.isEmpty || !frac.isEmpty) && expTailOk rest2
  | _ => !intPart.isEmpty && expTailOk rest

/-- Drops one leading sign character when present. -/
def stripNumSign : List Char → List Char
  | '+' :: r => r
  | '-' :: r => r
  | r => r

/-- Hexadecimal digit test. -/
def isHexDigitChar (c : Char) : Bool :=
  c.isDigit || ('a' ≤ c && c ≤ 'f') || ('A' ≤ c && c ≤ 'F')

/-- Recognizes an unsigned JS radix literal (0x.., 0o.., 0b..). -/
def radixLitOk : List Char → Bool
  | '0' :: c :: ds =>
      ((c == 'x' || c == 'X') && !ds.isEmpty && ds.all isHexDigitChar) ||
      ((c == 'o' || c == 'O') && !ds.isEmpty && ds.all (fun d => '0' ≤ d && d ≤ '7')) ||
      ((c == 'b' || c == 'B') && !ds.isEmpty && ds.all (fun d => d == '0' || d == '1'))
  | _ => false

/-- Whitespace trimming at both ends of a character list, as ToNumber
does before reading the numeric literal. -/
def jsTrimChars (cs : List Char) : List Char :=
  ((cs.dropWhile Char.isWhitespace).reverse.dropWhile Char.isWhitespace).reverse

/-- Whether isNaN(Number(s)) holds in JS for a string s: after trimming
whitespace, the empty string converts to 0 (not NaN), and otherwise the
whole remainder must be a signed decimal literal, a signed Infinity, or
an unsigned radix literal.  The source uses this only as the boolean
test isNaN(Number(c)) during header detection. -/
def jsNumberIsNaN (s : String) : Bool :=
  let cs := jsTrimChars s.data
  if cs.isEmpty then false
  else !(decMantissaOk (stripNumSign cs) ||
         stripNumSign cs == "Infinity".data ||
         radixLitOk cs)

/-- The cell filter of the header-detection loop (page.tsx line 127):
the cell is not null / undefined / the empty string, is a string, and
isNaN(Number(c)) holds. -/
def isHeaderTextCell : Cell → Bool
  | Cell.str s => (s != "") && jsNumberIsNaN s
  | _ => false

/-- Whether a row qualifies as header row: it contains at least two
cells passing the header-text filter (page.tsx line 129). -/
def headerQualifies (row : List Cell) : Bool :=
  decide (2 ≤ (row.filter isHeaderTextCell).length)

/-- The header-detection loop body: returns the index of the first
qualifying row of the given block, counting from the accumulator. -/
def headerScan : List (List Cell) → Nat → Option Nat
  | [], _ => none
  | row :: rest, i => if headerQualifies row then some i else headerScan rest (i + 1)

/-- Header row selection of handleExcelFile (page.tsx lines 122-133):
scan the first min(10, rowCount) rows and pick the first qualifying
one, defaulting to row 0.  An absent sparse row is modelled as the
empty row, which never qualifies, matching the continue branch. -/
def headerIdx (data : List (List Cell)) : Nat :=
  (headerScan (data.take 10) 0).getD 0

/-- Exponent digits of a parseFloat input after its sign, valued 0 when
no digit follows (JS then stops the literal before the marker). -/
def parseSignedExp : List Char → Int
  | '+' :: r =>
      if (r.takeWhile Char.isDigit).isEmpty then 0
      else (digitsToNat (r.takeWhile Char.isDigit) : Int)
  | '-' :: r =>
      if (r.takeWhile Char.isDigit).isEmpty then 0
      else -(digitsToNat (r.takeWhile Char.isDigit) : Int)
  | r =>
      if (r.takeWhile Char.isDigit).isEmpty then 0
      else (digitsToNat (r.takeWhile Char.isDigit) : Int)

/-- Exponent value read at the position right after the mantissa; 0
when there is no exponent part. -/
def parseExpChars : List Char → Int
  | 'e' :: r => parseSignedExp r
  | 'E' :: r => parseSignedExp r
  | _ => 0

/-- Value of JS parseFloat on a character list with leading whitespace
already removed: optional sign, digits, optional fraction, optional
exponent; none models NaN (no digit found).  Trailing characters after
the longest literal are ignored, as parseFloat does.  The Infinity
forms, which cannot be a rational, are not modelled; they do not occur
in the inputs any claim is about. -/
def parseFloatCore (cs0 : List Char) : Option ℚ :=
  let sgn : ℚ := match cs0 with | '-' :: _ => -1 | _ => 1
  let cs1 := stripNumSign cs0
  let intPart := cs1.takeWhile Char.isDigit
  let rest1 := cs1.dropWhile Char.isDigit
  let fracAndRest : List Char × List Char :=
    match rest1 with
    | '.' :: r => (r.takeWhile Char.isDigit, r.dropWhile Char.isDigit)
    | _ => ([], rest1)
  if intPart.isEmpty && fracAndRest.1.isEmpty then none
  else
    let mant : ℚ :=
      (digitsToNat intPart : ℚ) + (digitsToNat fracAndRest.1 : ℚ) / ((10 : ℚ) ^ fracAndRest.1.length)
    some (sgn * mant * (10 : ℚ) ^ parseExpChars fracAndRest.2)

/-- JS parseFloat: skip leading whitespace, then parse the longest
numeric literal at the front. -/
def jsParseFloat (cs : List Char) : Option ℚ :=
  parseFloatCore (cs.dropWhile Char.isWhitespace)

/-- JS String.replace(",", "."): replaces only the first comma. -/
def replFirstComma : List Char → List Char
  | [] => []
  | c :: r => if c = ',' then '.' :: r else c :: replFirstComma r

/-- Amount parsing of applyColumnMap on the text of the amount cell
(page.tsx line 185): parseFloat(text.replace(",", ".")) with NaN
coerced to 0 by the trailing JS or-with-0. -/
def parseImporteChars (cs : List Char) : ℚ :=
  (jsParseFloat (replFirstComma cs)).getD 0

/-- String-level wrapper of the amount parser. -/
def parseImporte (s : String) : ℚ :=
  parseImporteChars s.data

/-- Rendering of a numeric value as text.  A finite double round-trips
exactly through String and parseFloat in JS, so where a numeric cell is
pushed through String followed by parseFloat the original value comes
back; this stands in for ToString on numbers and its exact text is not
load-bearing for any claim. -/
def jsNumToString (q : ℚ) : String :=
  toString q

/-- Truthiness of a cell in JS: null, undefined, the empty string and
0 are falsy. -/
def cellTruthy : Cell → Bool
  | Cell.empty => false
  | Cell.num q => decide (q ≠ 0)
  | Cell.str s => decide (s ≠ "")

/-- Amount read from the mapped amount cell (page.tsx line 185):
String(cell), comma to dot, parseFloat, NaN coerced to 0.  An empty
slot renders as the text null or undefined, which parses to NaN, hence
0; a numeric cell survives the String and parseFloat round trip
unchanged, so its value is taken directly. -/
def importeOfCell : Cell → ℚ
  | Cell.empty => 0
  | Cell.num q => q
  | Cell.str s => parseImporte s

/-- Concept read from the mapped concept cell (page.tsx line 186):
String(cell || ""), so a falsy cell gives the empty string. -/
def conceptoOfCell (c : Cell) : String :=
  if cellTruthy c then
    match c with
    | Cell.empty => ""
    | Cell.num q => jsNumToString q
    | Cell.str s => s
  else ""

/-- Column mapping (colMap in the source): the chosen column index per
role; none models the empty-string value of an unmapped role. -/
structure ColMap where
  fecha : Option Nat
  importe : Option Nat
  concepto : Option Nat
  deriving DecidableEq, Repr

/-- Normalized bank movement (page.tsx lines 26-31). -/
structure Movement where
  _fecha : Cell
  _importe : ℚ
  _concepto : String
  _raw : List Cell
  deriving DecidableEq, Repr

/-- Row-to-movement mapping of applyColumnMap (page.tsx lines 183-188)
for the chosen columns; a cell beyond the row's width is the empty
slot. -/
def mkMovement (cm : ColMap) (row : List Cell) : Movement :=
  { _fecha := match cm.fecha with
      | none => Cell.empty
      | some i => row.getD i Cell.empty,
    _importe := match cm.importe with
      | none => 0
      | some i => importeOfCell (row.getD i Cell.empty),
    _concepto := match cm.concepto with
      | none => ""
      | some i => conceptoOfCell (row.getD i Cell.empty),
    _raw := row }

/-- Annotation fields returned for one receipt (TicketData,
page.tsx lines 33-41). -/
structure TicketData where
  importe : Option ℚ
  fecha : Option String
  comercio : Option String
  concepto : Option String
  tipo : Option String
  confianza : Option Nat
  error : Option String
  deriving DecidableEq, Repr

/-- Receipt lifecycle status (page.tsx line 46). -/
inductive TicketStatus where
  | pending
  | processing
  | done
  | error
  deriving DecidableEq, Repr

/-- The parts of a browser File the pipeline reads: name and media
type. -/
structure FileInfo where
  name : String
  mime : String
  deriving DecidableEq, Repr

/-- Receipt intake item (Ticket, page.tsx lines 43-49); preview records
whether a local object URL was created, the handle itself being
opaque. -/
structure Ticket where
  name : String
  file : FileInfo
  status : TicketStatus
  data : Option TicketData
  preview : Bool
  deriving DecidableEq, Repr

/-- One asserted movement-receipt correspondence from the Matcher
(page.tsx lines 51-56); indices are whatever integers the response
carried. -/
structure MatchEntry where
  movimiento_idx : Int
  ticket_idx : Int
  score : Int
  razon : String
  deriving DecidableEq, Repr

/-- Matcher response and installed reconciliation result
(page.tsx lines 58-63). -/
structure MatchResult where
  «matches» : List MatchEntry
  movimientos_sin_ticket : List Int
  tickets_sin_movimiento : List Int
  resumen : Option String
  deriving DecidableEq, Repr

/-- Session state of the wizard: the pieces of React state the claims
touch. -/
structure AppState where
  step : Nat
  movements : List Movement
  colMap : ColMap
  excelRaw : List (List Cell)
  tickets : List Ticket
  matchResult : Option MatchResult
  deriving DecidableEq, Repr

/-- Outcome of applyColumnMap: on a missing amount column the source
shows an error toast and leaves the state untouched (the
ConfigurationError of the spec); otherwise the normalized movements
are installed and the wizard advances. -/
inductive ApplyMapOutcome where
  | configError
  | applied (st : AppState)
  deriving DecidableEq, Repr

/-- The map-then-filter normalization of applyColumnMap
(page.tsx lines 182-189): build a movement per raw row, then drop the
rows whose amount normalized to 0. -/
def applyMapped (cm : ColMap) (rows : List (List Cell)) : List Movement :=
  (rows.map (mkMovement cm)).filter (fun m => decide (m._importe ≠ 0))

/-- applyColumnMap (page.tsx lines 177-193) on the session state. -/
def applyColumnMap (st : AppState) : ApplyMapOutcome :=
  match st.colMap.importe with
  | none => ApplyMapOutcome.configError
  | some _ =>
      ApplyMapOutcome.applied
        { st with movements := applyMapped st.colMap st.excelRaw, step := 1 }

/-- Whether the second character list is an initial run of the first. -/
def charsStart : List Char → List Char → Bool
  | _, [] => true
  | [], _ :: _ => false
  | c :: cs, d :: ds => (c == d) && charsStart cs ds

/-- JS String.startsWith, on the character lists of the two strings. -/
def strStartsWith (s p : String) : Bool :=
  charsStart s.data p.data

/-- Media-type filter at ticket intake (page.tsx lines 197-199). -/
def fileAccepted (f : FileInfo) : Bool :=
  strStartsWith f.mime "image/" || f.mime == "application/pdf"

/-- Fresh pending entry for an accepted file (page.tsx lines 205-217);
an image file gets its preview handle right away. -/
def mkEntry (f : FileInfo) : Ticket :=
  { name := f.name, file := f, status := TicketStatus.pending,
    data := none, preview := strStartsWith f.mime "image/" }

/-- The shape of every setTickets update in the intake loop: each
ticket of the whole collection whose name equals the given one is
replaced by f of itself, all others stay. -/
def updByName (f : Ticket → Ticket) (n : String) (ts : List Ticket) : List Ticket :=
  ts.map (fun t => if t.name = n then f t else t)

/-- Processing update at the top of the loop body (page.tsx
lines 222-224). -/
def markProcessing (n : String) (ts : List Ticket) : List Ticket :=
  updByName (fun t => { t with status := TicketStatus.processing }) n ts

/-- Result installation for an analyzed ticket (page.tsx
lines 235-241): a present error field gives status error, else done,
and the annotation is stored. -/
def applyAnnot (n : String) (r : TicketData) (ts : List Ticket) : List Ticket :=
  updByName (fun t =>
    { t with
      status := if r.error.isSome then TicketStatus.error else TicketStatus.done,
      data := some r }) n ts

/-- Annotation installed by the connection-failure branch (page.tsx
lines 242-250). -/
def connErrorData : TicketData :=
  { importe := none, fecha := none, comercio := none, concepto := none,
    tipo := none, confianza := none, error := some "Error de conexión" }

/-- Connection-failure update (page.tsx lines 242-250). -/
def applyConnError (n : String) (ts : List Ticket) : List Ticket :=
  updByName (fun t =>
    { t with status := TicketStatus.error, data := some connErrorData }) n ts

/-- Dispatch on one annotation outcome (try versus catch branch of
page.tsx lines 232-250): ok r models a parsed service reply, error the
thrown fetch. -/
def applyOutcome (n : String) (o : Except Unit TicketData) (ts : List Ticket) :
    List Ticket :=
  match o with
  | Except.ok r => applyAnnot n r ts
  | Except.error _ => applyConnError n ts

/-- Successive ticket collections produced by the sequential annotation
loop (page.tsx lines 221-251): for each entry in order, first the
processing update, then the done/error update as driven by that
entry's annotation outcome. -/
def runEntries : List Ticket → List Ticket → (Nat → Except Unit TicketData) → List (List Ticket)
  | _, [], _ => []
  | cur, e :: es, annot =>
      markProcessing e.name cur ::
      applyOutcome e.name (annot 0) (markProcessing e.name cur) ::
      runEntries (applyOutcome e.name (annot 0) (markProcessing e.name cur)) es
        (fun k => annot (k + 1))

/-- One whole run of handleTicketFiles: warned records the single
batch-rejection toast; states lists the ticket collection before the
run and after every setTickets call, in order. -/
structure IntakeRun where
  warned : Bool
  states : List (List Ticket)
  deriving DecidableEq, Repr

/-- handleTicketFiles (page.tsx lines 196-252), with the annotation
outcome of the i-th accepted file supplied by annot i. -/
def handleTicketFiles (ts : List Ticket) (files : List FileInfo)
    (annot : Nat → Except Unit TicketData) : IntakeRun :=
  let accepted := files.filter fileAccepted
  if accepted.isEmpty then { warned := true, states := [ts] }
  else
    let entries := accepted.map mkEntry
    let s0 := ts ++ entries
    { warned := false, states := ts :: s0 :: runEntries s0 entries annot }

/-- Movement summary sent to the Matcher (page.tsx lines 265-270). -/
structure MovSummary where
  idx : Nat
  fecha : String
  importe : ℚ
  concepto : String
  deriving DecidableEq, Repr

/-- Stand-in for formatDate (page.tsx lines 8-20): a falsy input gives
the em dash, otherwise a deterministic rendering of the cell.  The
original's es-ES locale output text is environment dependent and not
load-bearing for any claim. -/
def formatDateCell : Cell → String
  | Cell.empty => "—"
  | Cell.num q => if q = 0 then "—" else jsNumToString q
  | Cell.str s => if s = "" then "—" else s

/-- Receipt summary sent to the Matcher (page.tsx lines 271-278). -/
structure TickSummary where
  idx : Nat
  filename : String
  fecha : Option String
  importe : Option ℚ
  comercio : Option String
  concepto : Option String
  deriving DecidableEq, Repr

/-- The done-status receipts, in collection order (page.tsx
line 256). -/
def doneTickets (ts : List Ticket) : List Ticket :=
  ts.filter (fun t => decide (t.status = TicketStatus.done))

/-- Index-labeled movement summaries (page.tsx lines 265-270). -/
def movSummaries (ms : List Movement) : List MovSummary :=
  ms.enum.map (fun p =>
    { idx := p.1, fecha := formatDateCell p.2._fecha,
      importe := p.2._importe, concepto := p.2._concepto })

/-- Index-labeled receipt summaries over the done receipts only
(page.tsx lines 271-278). -/
def tickSummaries (ts : List Ticket) : List TickSummary :=
  (doneTickets ts).enum.map (fun p =>
    { idx := p.1, filename := p.2.name,
      fecha := p.2.data.bind (fun d => d.fecha),
      importe := p.2.data.bind (fun d => d.importe),
      comercio := p.2.data.bind (fun d => d.comercio),
      concepto := p.2.data.bind (fun d => d.concepto) })

/-- Visible outcome of one reconciliation run: the early warning toast,
the catch-branch error toast, or success. -/
inductive RunOutcome where
  | notReady
  | failed
  | succeeded
  deriving DecidableEq, Repr

/-- Observable effect of one runMatching call: its outcome, the payload
of the single Matcher call when one was issued, and the state
afterwards. -/
structure RunReport where
  outcome : RunOutcome
  called : Option (List MovSummary × List TickSummary)
  state : AppState
  deriving DecidableEq, Repr

/-- runMatching (page.tsx lines 255-290), parameterized by the
collaborator round trip: ok r means fetch and body parse delivered r,
error means either threw and the catch branch ran. -/
def runMatching (st : AppState) (resp : Except Unit MatchResult) : RunReport :=
  if (doneTickets st.tickets).isEmpty then
    { outcome := RunOutcome.notReady, called := none, state := st }
  else
    let payload := (movSummaries st.movements, tickSummaries st.tickets)
    match resp with
    | Except.error _ =>
        { outcome := RunOutcome.failed, called := some payload, state := st }
    | Except.ok r =>
        { outcome := RunOutcome.succeeded, called := some payload,
          state := { st with matchResult := some r, step := 2 } }

/-- Fallback body of the match API route (route.ts lines 63-68): when
the collaborator text cannot be parsed, the route answers 200 with
this empty result. -/
def emptyMatchResult : MatchResult :=
  { «matches» := [], movimientos_sin_ticket := [], tickets_sin_movimiento := [],
    resumen := none }

/-- POST handler of src/app/api/match/route.ts after the collaborator
round trip, parameterized by the parse of the collaborator's text: a
successful parse is returned as is, a parse failure becomes the empty
fallback result, still delivered as a successful response
(route.ts lines 58-69). -/
def matchRoutePost (parsed : Except Unit MatchResult) : MatchResult :=
  match parsed with
  | Except.ok r => r
  | Except.error _ => emptyMatchResult

/-- JS array indexing arr[i] with an arbitrary integer index: none
models undefined. -/
def jsIndex {α : Type} (l : List α) (i : Int) : Option α :=
  if h : 0 ≤ i ∧ i.toNat < l.length then some (l.get ⟨i.toNat, h.2⟩) else none

/-- The or-dash rendering pattern x || em dash of the export and report
tables. -/
def orDash : Option String → String
  | some s => if s = "" then "—" else s
  | none => "—"

/-- One row of the Conciliados sheet (exportToExcel lines 317-331),
with the source's placeholder rendering for dangling indices. -/
structure MatchRow where
  score : Int
  fechaMovimiento : String
  importeMov : Option ℚ
  conceptoBancario : String
  ticket : String
  fechaTicket : String
  comercio : String
  tipo : String
  razon : String
  deriving DecidableEq, Repr

/-- Row construction of the Conciliados sheet for one match entry:
movement and ticket are resolved by index lookup in the full movement
and ticket collections (exportToExcel lines 318-319). -/
def mkMatchRow (movs : List Movement) (ts : List Ticket) (m : MatchEntry) : MatchRow :=
  let mov := jsIndex movs m.movimiento_idx
  let tick := jsIndex ts m.ticket_idx
  { score := m.score,
    fechaMovimiento := formatDateCell (match mov with
      | some mv => mv._fecha
      | none => Cell.empty),
    importeMov := mov.map (fun mv => mv._importe),
    conceptoBancario := match mov with
      | some mv => if mv._concepto = "" then "—" else mv._concepto
      | none => "—",
    ticket := match tick with
      | some t => if t.name = "" then "—" else t.name
      | none => "—",
    fechaTicket := orDash (tick.bind (fun t => t.data.bind (fun d => d.fecha))),
    comercio := orDash (tick.bind (fun t => t.data.bind (fun d => d.comercio))),
    tipo := orDash (tick.bind (fun t => t.data.bind (fun d => d.tipo))),
    razon := m.razon }

/-- The Conciliados sheet: one row per match entry of the installed
result (exportToExcel lines 316-334). -/
def exportMatchRows (movs : List Movement) (ts : List Ticket) (mr : MatchResult) :
    List MatchRow :=
  mr.«matches».map (mkMatchRow movs ts)

/-- Status of the ticket at position i of the k-th recorded collection
of an intake run. -/
def statusAt (run : IntakeRun) (k i : Nat) : Option TicketStatus :=
  ((run.states.getD k []).get? i).map (fun t => t.status)

/-- Sample movement with a 12 euro charge. -/
def movA : Movement :=
  { _fecha := Cell.empty, _importe := 12, _concepto := "COMPRA A", _raw := [] }

/-- Sample movement with a 30 euro charge. -/
def movB : Movement :=
  { _fecha := Cell.empty, _importe := 30, _concepto := "COMPRA B", _raw := [] }

/-- Sample successful annotation. -/
def sampleAnnotation : TicketData :=
  { importe := some 12, fecha := some "2024-01-15", comercio := some "BAR PEPE",
    concepto := some "comida", tipo := some "restaurante", confianza := some 90,
    error := none }

/-- Sample receipt that finished annotation successfully. -/
def ticketDoneB : Ticket :=
  { name := "b.jpg", file := { name := "b.jpg", mime := "image/jpeg" },
    status := TicketStatus.done, data := some sampleAnnotation, preview := true }

/-- Sample receipt that failed with a connection error. -/
def ticketErrA : Ticket :=
  { name := "a.jpg", file := { name := "a.jpg", mime := "image/jpeg" },
    status := TicketStatus.error, data := some connErrorData, preview := true }

/-- Sample receipt still waiting to be processed. -/
def ticketPendingC : Ticket :=
  { name := "c.jpg", file := { name := "c.jpg", mime := "image/jpeg" },
    status := TicketStatus.pending, data := none, preview := true }

/-- Session with two movements and one done receipt. -/
def stTwoMov : AppState :=
  { step := 1, movements := [movA, movB],
    colMap := { fecha := none, importe := some 0, concepto := none },
    excelRaw := [], tickets := [ticketDoneB], matchResult := none }

/-- Session whose receipt collection has no done member. -/
def stNoDone : AppState :=
  { stTwoMov with tickets := [ticketPendingC], matchResult := some emptyMatchResult }

/-- Matcher response claiming movement 0 twice. -/
def dupResponse : MatchResult :=
  { «matches» :=
      [ { movimiento_idx := 0, ticket_idx := 0, score := 90, razon := "importe" },
        { movimiento_idx := 0, ticket_idx := 0, score := 80, razon := "fecha" } ],
    movimientos_sin_ticket := [], tickets_sin_movimiento := [], resumen := none }

/-- A previously installed, nonempty reconciliation result. -/
def prevResult : MatchResult :=
  { «matches» :=
      [ { movimiento_idx := 0, ticket_idx := 0, score := 95, razon := "importe y fecha" } ],
    movimientos_sin_ticket := [1], tickets_sin_movimiento := [], resumen := some "ok" }

/-- Session that already holds prevResult. -/
def stWithPrev : AppState := { stTwoMov with matchResult := some prevResult }

/-- Session whose receipt collection mixes an errored receipt before a
done one. -/
def stMixed : AppState :=
  { stTwoMov with movements := [movA], tickets := [ticketErrA, ticketDoneB] }

/-- Matcher response pairing movement 0 with receipt summary 0. -/
def resultSingle : MatchResult :=
  { «matches» :=
      [ { movimiento_idx := 0, ticket_idx := 0, score := 95, razon := "mismo importe" } ],
    movimientos_sin_ticket := [], tickets_sin_movimiento := [], resumen := none }

/-- Grid with a title row before the real header row. -/
def sampleGrid : List (List Cell) :=
  [ [Cell.str "EXTRACTO", Cell.num 2024],
    [Cell.str "Fecha", Cell.str "Importe", Cell.str "Concepto"],
    [Cell.str "01/02/2024", Cell.num 12, Cell.str "COMPRA"] ]

/-- Raw-rows session whose amount column holds a nonzero, a zero and an
unparsable cell. -/
def stRaw : AppState :=
  { step := 0, movements := [],
    colMap := { fecha := none, importe := some 0, concepto := none },
    excelRaw := [[Cell.num 12], [Cell.num 0], [Cell.str "pendiente"]],
    tickets := [], matchResult := none }

/-- Accepted sample upload. -/
def goodPng : FileInfo := { name := "foto.png", mime := "image/png" }

/-- Rejected sample upload (not an image, not a PDF). -/
def badTxt : FileInfo := { name := "notas.txt", mime := "text/plain" }

/-- Receipt from an earlier batch that already reached done. -/
def oldDoneA : Ticket :=
  { name := "a.jpg", file := { name := "a.jpg", mime := "image/jpeg" },
    status := TicketStatus.done, data := some sampleAnnotation, preview := true }

/-- A later upload reusing the filename of oldDoneA. -/
def reuploadA : FileInfo := { name := "a.jpg", mime := "image/jpeg" }

/-- A status is terminal when it is done or error. -/
def terminalStatus (s : TicketStatus) : Prop :=
  s = TicketStatus.done ∨ s = TicketStatus.error

/-- Between two successive collections, no ticket position leaves a
terminal status it had reached. -/
def adjStable (s1 s2 : List Ticket) : Prop :=
  ∀ i t u, s1.get? i = some t → s2.get? i = some u →
    terminalStatus t.status → u.status = t.status

/-- Every ticket of the collection carrying the name of a
still-unprocessed entry is pending. -/
def namesPending (cur : List Ticket) (es : List Ticket) : Prop :=
  ∀ e ∈ es, ∀ i t, cur.get? i = some t → t.name = e.name →
    t.status = TicketStatus.pending

/-- Turns a nonempty done-receipt list into the false isEmpty test the
runMatching guard reads. -/
theorem doneTickets_isEmpty_false {st : AppState} (h : doneTickets st.tickets ≠ []) :
    (doneTickets st.tickets).isEmpty = false := by
  cases hdt : doneTickets st.tickets with
  | nil => exact absurd hdt h
  | cons a l => rfl

/-- C5: a reconciliation run attempted with zero done receipts stops at
the guard with the warning toast (NotReady), issues no Matcher call,
and leaves the whole session state, in particular the installed
MatchResult, unchanged. -/
theorem claim_C5_not_ready_guard (st : AppState) (resp : Except Unit MatchResult)
    (h : doneTickets st.tickets = []) :
    runMatching st resp =
      { outcome := RunOutcome.notReady, called := none, state := st } := by
  simp [runMatching, h]

/-- Witness for claim C5 at a concrete session with one pending receipt
and a previously installed result. -/
theorem claim_C5_not_ready_guard_witness :
    runMatching stNoDone (Except.error ()) =
      { outcome := RunOutcome.notReady, called := none, state := stNoDone } :=
  claim_C5_not_ready_guard stNoDone (Except.error ()) (by decide)

/-- C1 counterexample: for a response whose two entries both claim
movement index 0, the run succeeds and installs the response verbatim:
both duplicate entries are kept (not at most one), and the unclaimed
movement index 1 does not appear in the installed unmatchedMovements,
which is taken from the response instead of being recomputed. -/
theorem claim_C1_counterexample :
    (runMatching stTwoMov (Except.ok dupResponse)).outcome = RunOutcome.succeeded ∧
    (runMatching stTwoMov (Except.ok dupResponse)).state.matchResult = some dupResponse ∧
    (dupResponse.«matches».filter (fun e => decide (e.movimiento_idx = 0))).length = 2 ∧
    (1 : Int) ∉ dupResponse.movimientos_sin_ticket := by
  decide

/-- C1 amended: past the NotReady guard, the aggregator installs the
Matcher response verbatim as the new MatchResult: no entry validation,
no discarding, and no recomputation of the two unmatched lists takes
place. -/
theorem claim_C1_amended_verbatim_install (st : AppState) (r : MatchResult)
    (h : doneTickets st.tickets ≠ []) :
    (runMatching st (Except.ok r)).outcome = RunOutcome.succeeded ∧
    (runMatching st (Except.ok r)).state.matchResult = some r := by
  have hb := doneTickets_isEmpty_false h
  constructor
  · simp [runMatching, hb]
  · simp [runMatching, hb]

/-- Witness for the amended claim C1 at the concrete duplicate-entry
response. -/
theorem claim_C1_amended_verbatim_install_witness :
    (runMatching stTwoMov (Except.ok dupResponse)).outcome = RunOutcome.succeeded ∧
    (runMatching stTwoMov (Except.ok dupResponse)).state.matchResult = some dupResponse :=
  claim_C1_amended_verbatim_install stTwoMov dupResponse (by decide)

/-- C2 counterexample: when the collaborator's payload cannot be parsed,
the match route answers with the empty fallback result as a success, so
the client run is reported as succeeded and the empty result replaces
the previously installed one, which differs from it. -/
theorem claim_C2_counterexample :
    (runMatching stWithPrev (Except.ok (matchRoutePost (Except.error ())))).outcome
        = RunOutcome.succeeded ∧
    (runMatching stWithPrev (Except.ok (matchRoutePost (Except.error ())))).state.matchResult
        = some emptyMatchResult ∧
    emptyMatchResult ≠ prevResult := by
  decide

/-- C2 amended: a transport failure between client and route lands in
the catch branch: the run is reported failed and the whole state, hence
the previously installed result, is unchanged.  But a parse failure of
the collaborator's payload inside the route yields a successful
response carrying the empty fallback result, which the client then
installs in place of the previous one. -/
theorem claim_C2_amended_failure_paths (st : AppState)
    (h : doneTickets st.tickets ≠ []) :
    (runMatching st (Except.error ())).outcome = RunOutcome.failed ∧
    (runMatching st (Except.error ())).state = st ∧
    (runMatching st (Except.ok (matchRoutePost (Except.error ())))).state.matchResult
        = some emptyMatchResult := by
  have hb := doneTickets_isEmpty_false h
  refine ⟨?_, ?_, ?_⟩
  · simp [runMatching, hb]
  · simp [runMatching, hb]
  · simp [runMatching, hb, matchRoutePost]

/-- Witness for the amended claim C2 at the concrete session holding a
previous result. -/
theorem claim_C2_amended_failure_paths_witness :
    (runMatching stWithPrev (Except.error ())).outcome = RunOutcome.failed ∧
    (runMatching stWithPrev (Except.error ())).state = stWithPrev ∧
    (runMatching stWithPrev (Except.ok (matchRoutePost (Except.error ())))).state.matchResult
        = some emptyMatchResult :=
  claim_C2_amended_failure_paths stWithPrev (by decide)

/-- C3, evaluated at the failing input: the receipt summaries index
only done receipts, so summary index 0 names b.jpg, the done receipt;
but the export resolves entry index 0 in the full receipt collection,
yielding a.jpg, the errored receipt, in the exported row.  The index
spaces differ as soon as some receipt is not done, contradicting the
claimed identification. -/
theorem claim_C3_export_resolves_wrong_ticket :
    ((tickSummaries stMixed.tickets).map (fun s => s.filename) = ["b.jpg"]) ∧
    ((exportMatchRows stMixed.movements stMixed.tickets resultSingle).map
        (fun r => r.ticket) = ["a.jpg"]) ∧
    (jsIndex stMixed.tickets (0 : Int)).map (fun t => t.status)
        = some TicketStatus.error := by
  decide

/-- Shifting the index accumulator of the header scan only shifts the
reported index. -/
theorem headerScan_shift (rows : List (List Cell)) :
    ∀ k, headerScan rows k = (headerScan rows 0).map (fun j => j + k) := by
  induction rows with
  | nil => intro k; rfl
  | cons r rest ih =>
      intro k
      by_cases hq : headerQualifies r = true
      · simp [headerScan, hq]
      · cases h0 : headerScan rest 0 with
        | none => simp [headerScan, hq, ih (k + 1), ih 1, h0]
        | some j =>
            simp [headerScan, hq, ih (k + 1), ih 1, h0]
            omega

/-- A successful header scan from accumulator 0 reports the first
qualifying row of the block. -/
theorem headerScan_zero_spec (rows : List (List Cell)) (j : Nat)
    (h : headerScan rows 0 = some j) :
    j < rows.length ∧ headerQualifies (rows.getD j []) = true ∧
      ∀ m, m < j → headerQualifies (rows.getD m []) = false := by
  induction rows generalizing j with
  | nil => simp [headerScan] at h
  | cons r rest ih =>
      by_cases hq : headerQualifies r = true
      · simp [headerScan, hq] at h
        subst h
        exact ⟨by simp, by simpa using hq, fun m hm => absurd hm (by omega)⟩
      · simp only [headerScan, hq, if_false, Bool.false_eq_true, if_neg] at h
        rw [headerScan_shift rest 1] at h
        cases h0 : headerScan rest 0 with
        | none => rw [h0] at h; simp at h
        | some j0 =>
            rw [h0] at h
            simp at h
            obtain ⟨h1, h2, h3⟩ := ih j0 h0
            subst h
            refine ⟨by simp; omega, by simpa using h2, ?_⟩
            intro m hm
            cases m with
            | zero =>
                simpa using (Bool.eq_false_iff.mpr hq)
            | succ m2 =>
                simpa using h3 m2 (by omega)

/-- A failed header scan from accumulator 0 means no row of the block
qualifies. -/
theorem headerScan_zero_none (rows : List (List Cell)) (h : headerScan rows 0 = none) :
    ∀ m, m < rows.length → headerQualifies (rows.getD m []) = false := by
  induction rows with
  | nil => intro m hm; simp at hm
  | cons r rest ih =>
      intro m hm
      by_cases hq : headerQualifies r = true
      · simp [headerScan, hq] at h
      · simp only [headerScan, hq, if_false, Bool.false_eq_true, if_neg] at h
        rw [headerScan_shift rest 1] at h
        have h0 : headerScan rest 0 = none := by
          cases h0 : headerScan rest 0 with
          | none => rfl
          | some j => rw [h0] at h; simp at h
        cases m with
        | zero => simpa using (Bool.eq_false_iff.mpr hq)
        | succ m2 =>
            simp only [List.getD_cons_succ]
            exact ih h0 m2 (by simpa using hm)

/-- C6: the ingestor scans only rows 0 to min(9, last row); whenever a
row in that range qualifies (at least two non-empty, non
numeric-parseable text cells), the selected header index is a
qualifying row no later than it; and when no row in the range
qualifies, row 0 is selected. -/
theorem claim_C6_header_first_qualifying (data : List (List Cell)) :
    (∀ i, i < min data.length 10 → headerQualifies (data.getD i []) = true →
        headerIdx data ≤ i ∧ headerQualifies (data.getD (headerIdx data) []) = true) ∧
    ((∀ i, i < min data.length 10 → headerQualifies (data.getD i []) = false) →
        headerIdx data = 0) := by
  have hlen : (data.take 10).length = min data.length 10 := by
    rw [List.length_take]; omega
  have hgetD : ∀ m, m < 10 → (data.take 10).getD m [] = data.getD m [] := by
    intro m hm
    rw [List.getD_eq_get?, List.getD_eq_get?, List.get?_take hm]
  constructor
  · intro i hi hq
    cases hscan : headerScan (data.take 10) 0 with
    | none =>
        exfalso
        have hfalse := headerScan_zero_none _ hscan i (by omega)
        rw [hgetD i (by omega)] at hfalse
        rw [hfalse] at hq
        exact Bool.false_ne_true hq
    | some j =>
        obtain ⟨hj, hqj, hmin⟩ := headerScan_zero_spec _ _ hscan
        have hidx : headerIdx data = j := by simp [headerIdx, hscan]
        rw [hidx]
        constructor
        · by_contra hlt
          have hfalse := hmin i (by omega)
          rw [hgetD i (by omega)] at hfalse
          rw [hfalse] at hq
          exact Bool.false_ne_true hq
        · rw [← hgetD j (by omega)]
          exact hqj
  · intro hall
    cases hscan : headerScan (data.take 10) 0 with
    | none => simp [headerIdx, hscan]
    | some j =>
        obtain ⟨hj, hqj, _⟩ := headerScan_zero_spec _ _ hscan
        exfalso
        have hfalse := hall j (by omega)
        rw [← hgetD j (by omega)] at hfalse
        rw [hfalse] at hqj
        exact Bool.false_ne_true hqj

/-- Witness for claim C6: in the sample grid, row 1 qualifies and the
selected header row is a qualifying row no later than 1. -/
theorem claim_C6_header_first_qualifying_witness :
    headerIdx sampleGrid ≤ 1 ∧
      headerQualifies (sampleGrid.getD (headerIdx sampleGrid) []) = true :=
  (claim_C6_header_first_qualifying sampleGrid).1 1 (by decide) (by decide)

/-- Replacing the first comma is the identity on comma-free text. -/
theorem replFirstComma_no_comma (cs : List Char) (h : ',' ∉ cs) :
    replFirstComma cs = cs := by
  induction cs with
  | nil => rfl
  | cons c r ih =>
      have hc : ¬(c = ',') := by
        intro e; exact h (by simp [e])
      simp [replFirstComma, hc]
      exact ih (fun hm => h (List.mem_cons_of_mem _ hm))

/-- Replacing the first comma after a comma-free part rewrites exactly
that comma to a dot. -/
theorem replFirstComma_append (cs rest : List Char) (h : ',' ∉ cs) :
    replFirstComma (cs ++ ',' :: rest) = cs ++ '.' :: rest := by
  induction cs with
  | nil => simp [replFirstComma]
  | cons c r ih =>
      have hc : ¬(c = ',') := by
        intro e; exact h (by simp [e])
      simp [replFirstComma, hc]
      exact ih (fun hm => h (List.mem_cons_of_mem _ hm))

/-- C7: an amount cell written with a comma as decimal separator parses
to the same value as its dot-separated equivalent, and in particular
the cells 12,50 and 12.50 both yield the amount 12.50. -/
theorem claim_C7_comma_decimal (a b : String)
    (ha : ',' ∉ a.data) (hb : ',' ∉ b.data) :
    parseImporte (a ++ "," ++ b) = parseImporte (a ++ "." ++ b) ∧
    parseImporte "12,50" = 25 / 2 ∧ parseImporte "12.50" = 25 / 2 := by
  refine ⟨?_, ?_, ?_⟩
  · show parseImporteChars (a ++ "," ++ b).data = parseImporteChars (a ++ "." ++ b).data
    have h1 : (a ++ "," ++ b).data = a.data ++ ',' :: b.data := by
      simp [String.data_append]
    have h2 : (a ++ "." ++ b).data = a.data ++ '.' :: b.data := by
      simp [String.data_append]
    have hnc : ',' ∉ a.data ++ '.' :: b.data := by
      intro hm
      rcases List.mem_append.mp hm with hma | hmr
      · exact ha hma
      · rcases List.mem_cons.mp hmr with hdot | hmb
        · exact absurd hdot.symm (by decide)
        · exact hb hmb
    simp only [parseImporteChars]
    rw [h1, h2, replFirstComma_append a.data b.data ha, replFirstComma_no_comma _ hnc]
  · have hv : parseImporte "12,50"
        = 1 * ((digitsToNat ['1', '2'] : ℚ) + (digitsToNat ['5', '0'] : ℚ) / (10 : ℚ) ^ 2)
            * (10 : ℚ) ^ (0 : ℤ) := rfl
    rw [hv]
    norm_num [show digitsToNat ['1', '2'] = 12 from rfl,
      show digitsToNat ['5', '0'] = 50 from rfl]
  · have hv : parseImporte "12.50"
        = 1 * ((digitsToNat ['1', '2'] : ℚ) + (digitsToNat ['5', '0'] : ℚ) / (10 : ℚ) ^ 2)
            * (10 : ℚ) ^ (0 : ℤ) := rfl
    rw [hv]
    norm_num [show digitsToNat ['1', '2'] = 12 from rfl,
      show digitsToNat ['5', '0'] = 50 from rfl]

/-- Witness for claim C7 at the spec's own example pair. -/
theorem claim_C7_comma_decimal_witness :
    parseImporte ("12" ++ "," ++ "50") = parseImporte ("12" ++ "." ++ "50") ∧
    parseImporte "12,50" = 25 / 2 ∧ parseImporte "12.50" = 25 / 2 :=
  claim_C7_comma_decimal "12" "50" (by decide) (by decide)

/-- C9: with an amount column chosen, applying the mapping succeeds and
produces only movements whose amount differs from 0; the output is
exactly the rows whose amount cell normalizes to a nonzero value (rows
parsing to 0, including unparsable ones, are dropped), each turned into
its movement. -/
theorem claim_C9_nonzero_amounts (st : AppState) (i : Nat)
    (h : st.colMap.importe = some i) :
    ∃ st2, applyColumnMap st = ApplyMapOutcome.applied st2 ∧
      (∀ m ∈ st2.movements, m._importe ≠ 0) ∧
      st2.movements =
        (st.excelRaw.filter
            (fun r => decide (importeOfCell (r.getD i Cell.empty) ≠ 0))).map
          (mkMovement st.colMap) := by
  refine ⟨{ st with movements := applyMapped st.colMap st.excelRaw, step := 1 },
    ?_, ?_, ?_⟩
  · simp [applyColumnMap, h]
  · intro m hm
    have hp := List.of_mem_filter hm
    simpa using hp
  · show applyMapped st.colMap st.excelRaw = _
    unfold applyMapped
    rw [List.filter_map]
    congr 1
    apply List.filter_congr
    intro r hr
    simp [Function.comp, mkMovement, h]

/-- Witness for claim C9 at the sample raw rows. -/
theorem claim_C9_nonzero_amounts_witness :
    ∃ st2, applyColumnMap stRaw = ApplyMapOutcome.applied st2 ∧
      (∀ m ∈ st2.movements, m._importe ≠ 0) ∧
      st2.movements =
        (stRaw.excelRaw.filter
            (fun r => decide (importeOfCell (r.getD 0 Cell.empty) ≠ 0))).map
          (mkMovement stRaw.colMap) :=
  claim_C9_nonzero_amounts stRaw 0 (by decide)

/-- C10: each of the three status updates of the intake loop rewrites,
at every position of the whole receipt collection, exactly the tickets
whose name equals the processed file's name, leaving every other
position untouched; so receipts sharing a filename change status
together. -/
theorem claim_C10_update_by_name (ts : List Ticket) (n : String) (r : TicketData)
    (i : Nat) (t : Ticket) (h : ts.get? i = some t) :
    (markProcessing n ts).get? i
        = some (if t.name = n then { t with status := TicketStatus.processing } else t) ∧
    (applyAnnot n r ts).get? i
        = some (if t.name = n then
            { t with
              status := if r.error.isSome then TicketStatus.error else TicketStatus.done,
              data := some r }
          else t) ∧
    (applyConnError n ts).get? i
        = some (if t.name = n then
            { t with status := TicketStatus.error, data := some connErrorData }
          else t) := by
  unfold markProcessing applyAnnot applyConnError updByName
  have h2 : ts[i]? = some t := by
    rw [← List.get?_eq_getElem?]; exact h
  refine ⟨?_, ?_, ?_⟩ <;>
    simp [List.get?_eq_getElem?, List.getElem?_map, h2]

/-- Witness for claim C10: the update lands on the same-named receipt
at position 0. -/
theorem claim_C10_update_by_name_witness :
    (markProcessing "a.jpg" [ticketErrA]).get? 0
        = some (if ticketErrA.name = "a.jpg" then
            { ticketErrA with status := TicketStatus.processing }
          else ticketErrA) ∧
    (applyAnnot "a.jpg" sampleAnnotation [ticketErrA]).get? 0
        = some (if ticketErrA.name = "a.jpg" then
            { ticketErrA with
              status := if sampleAnnotation.error.isSome then TicketStatus.error
                else TicketStatus.done,
              data := some sampleAnnotation }
          else ticketErrA) ∧
    (applyConnError "a.jpg" [ticketErrA]).get? 0
        = some (if ticketErrA.name = "a.jpg" then
            { ticketErrA with status := TicketStatus.error, data := some connErrorData }
          else ticketErrA) :=
  claim_C10_update_by_name [ticketErrA] "a.jpg" sampleAnnotation 0 ticketErrA (by decide)

/-- Positionwise description of a by-name update. -/
theorem updByName_get? (f : Ticket → Ticket) (n : String) (ts : List Ticket) (i : Nat) :
    (updByName f n ts).get? i
      = (ts.get? i).map (fun t => if t.name = n then f t else t) := by
  simp [updByName, List.get?_eq_getElem?, List.getElem?_map]

/-- A by-name update with a name-preserving body keeps the name roster
of the collection. -/
theorem updByName_name_map (f : Ticket → Ticket) (n : String) (ts : List Ticket)
    (hf : ∀ t, (f t).name = t.name) :
    (updByName f n ts).map (fun t => t.name) = ts.map (fun t => t.name) := by
  unfold updByName
  rw [List.map_map]
  apply List.map_congr_left
  intro t ht
  by_cases hn : t.name = n
  · simp [Function.comp, hn, hf]
  · simp [Function.comp, hn]

/-- The bodies of the three intake updates preserve ticket names, so
applyOutcome keeps the name roster. -/
theorem applyOutcome_name_map (n : String) (o : Except Unit TicketData)
    (ts : List Ticket) :
    (applyOutcome n o ts).map (fun t => t.name) = ts.map (fun t => t.name) := by
  cases o with
  | ok r => exact updByName_name_map _ _ _ (fun t => rfl)
  | error e => exact updByName_name_map _ _ _ (fun t => rfl)

/-- Unfolding equation of the annotation loop on the empty queue. -/
theorem runEntries_nil (cur : List Ticket) (annot : Nat → Except Unit TicketData) :
    runEntries cur [] annot = [] := rfl

/-- Unfolding equation of the annotation loop on a nonempty queue. -/
theorem runEntries_cons (cur : List Ticket) (e : Ticket) (es : List Ticket)
    (annot : Nat → Except Unit TicketData) :
    runEntries cur (e :: es) annot
      = markProcessing e.name cur ::
        applyOutcome e.name (annot 0) (markProcessing e.name cur) ::
        runEntries (applyOutcome e.name (annot 0) (markProcessing e.name cur)) es
          (fun k => annot (k + 1)) := rfl

/-- Every collection recorded by the annotation loop keeps the name
roster of its starting collection. -/
theorem runEntries_names (es : List Ticket) :
    ∀ (cur : List Ticket) (annot : Nat → Except Unit TicketData),
      ∀ s ∈ runEntries cur es annot,
        s.map (fun t => t.name) = cur.map (fun t => t.name) := by
  induction es with
  | nil =>
      intro cur annot s hs
      rw [runEntries_nil] at hs
      exact absurd hs (List.not_mem_nil s)
  | cons e es ih =>
      intro cur annot s hs
      have hm : (markProcessing e.name cur).map (fun t => t.name)
          = cur.map (fun t => t.name) :=
        updByName_name_map _ _ _ (fun t => rfl)
      have ha : (applyOutcome e.name (annot 0) (markProcessing e.name cur)).map
            (fun t => t.name) = cur.map (fun t => t.name) := by
        rw [applyOutcome_name_map, hm]
      rw [runEntries_cons] at hs
      simp only [List.mem_cons] at hs
      rcases hs with rfl | rfl | hs2
      · exact hm
      · exact ha
      · rw [ih _ _ s hs2, ha]

/-- Name roster of freshly created entries. -/
theorem entries_names (fs : List FileInfo) :
    (fs.map mkEntry).map (fun t => t.name) = fs.map (fun f => f.name) := by
  rw [List.map_map]
  apply List.map_congr_left
  intro f hf
  rfl

/-- A by-name update cannot disturb a terminal status as long as no
ticket carrying the updated name is terminal. -/
theorem adjStable_updByName (f : Ticket → Ticket) (n : String) (cur : List Ticket)
    (h : ∀ i t, cur.get? i = some t → t.name = n → ¬ terminalStatus t.status) :
    adjStable cur (updByName f n cur) := by
  intro i t u ht hu hterm
  rw [updByName_get?, ht] at hu
  simp only [Option.map_some', Option.some.injEq] at hu
  by_cases hn : t.name = n
  · exact absurd hterm (h i t ht hn)
  · rw [if_neg hn] at hu
    rw [← hu]

/-- After the processing update, every ticket carrying the processed
name has status processing. -/
theorem markProcessing_named_status (n : String) (cur : List Ticket) :
    ∀ i t, (markProcessing n cur).get? i = some t → t.name = n →
      t.status = TicketStatus.processing := by
  intro i t ht hn
  unfold markProcessing at ht
  rw [updByName_get?] at ht
  cases hcur : cur.get? i with
  | none => rw [hcur] at ht; simp at ht
  | some u =>
      rw [hcur] at ht
      simp only [Option.map_some', Option.some.injEq] at ht
      by_cases hu : u.name = n
      · rw [if_pos hu] at ht
        rw [← ht]
      · rw [if_neg hu] at ht
        rw [← ht] at hn
        exact absurd hn hu

/-- A name-preserving by-name update on a name outside the pending set
keeps the pending-names invariant. -/
theorem namesPending_updByName (f : Ticket → Ticket) (n : String)
    (cur es : List Ticket)
    (hf : ∀ t, (f t).name = t.name)
    (hne : ∀ e ∈ es, ¬ e.name = n)
    (h : namesPending cur es) :
    namesPending (updByName f n cur) es := by
  intro e he i t ht hname
  rw [updByName_get?] at ht
  cases hcur : cur.get? i with
  | none => rw [hcur] at ht; simp at ht
  | some u =>
      rw [hcur] at ht
      simp only [Option.map_some', Option.some.injEq] at ht
      by_cases hu : u.name = n
      · exfalso
        apply hne e he
        rw [← hname, ← ht, if_pos hu, hf u, hu]
      · rw [if_neg hu] at ht
        rw [← ht] at hname ⊢
        exact h e he i u hcur hname

/-- Core stability argument: starting from a collection in which every
still-pending entry name is only carried by pending tickets, and with
pairwise distinct entry names, every adjacent pair of collections of
the annotation loop preserves terminal statuses positionwise. -/
theorem runEntries_chain (es : List Ticket) :
    ∀ (cur : List Ticket) (annot : Nat → Except Unit TicketData),
      (es.map (fun t => t.name)).Nodup →
      namesPending cur es →
      List.Chain' adjStable (cur :: runEntries cur es annot) := by
  induction es with
  | nil =>
      intro cur annot _ _
      rw [runEntries_nil]
      exact List.chain'_singleton cur
  | cons e es ih =>
      intro cur annot hnd hpen
      have hnd2 : (∀ x ∈ es, ¬ x.name = e.name) ∧
          (es.map (fun t => t.name)).Nodup := by
        simpa using hnd
      have hne : ∀ x ∈ es, ¬ x.name = e.name := hnd2.1
      have hpentail : namesPending cur es :=
        fun x hx i t ht hn => hpen x (List.mem_cons_of_mem _ hx) i t ht hn
      have hpen1 : namesPending (markProcessing e.name cur) es :=
        namesPending_updByName _ _ _ _ (fun t => rfl) hne hpentail
      have hpen2 : namesPending
          (applyOutcome e.name (annot 0) (markProcessing e.name cur)) es := by
        cases annot 0 with
        | ok r => exact namesPending_updByName _ _ _ _ (fun t => rfl) hne hpen1
        | error u => exact namesPending_updByName _ _ _ _ (fun t => rfl) hne hpen1
      rw [runEntries_cons]
      rw [List.chain'_cons]
      constructor
      · apply adjStable_updByName
        intro i t ht hn
        have hp := hpen e (List.mem_cons_self e es) i t ht hn
        rw [hp]
        rintro (hd | hd) <;> exact TicketStatus.noConfusion hd
      · rw [List.chain'_cons]
        constructor
        · have hproc := markProcessing_named_status e.name cur
          cases annot 0 with
          | ok r =>
              apply adjStable_updByName
              intro i t ht hn
              rw [hproc i t ht hn]
              rintro (hd | hd) <;> exact TicketStatus.noConfusion hd
          | error u =>
              apply adjStable_updByName
              intro i t ht hn
              rw [hproc i t ht hn]
              rintro (hd | hd) <;> exact TicketStatus.noConfusion hd
        · exact ih _ _ hnd2.2 hpen2

/-- C4 counterexample: a receipt that already reached done is reset to
processing when a later batch reuses its filename: position 0 holds the
old done receipt in the collection recorded after the append, and the
very next recorded collection shows it with status processing. -/
theorem claim_C4_counterexample :
    statusAt (handleTicketFiles [oldDoneA] [reuploadA]
        (fun _ => Except.ok sampleAnnotation)) 1 0 = some TicketStatus.done ∧
    statusAt (handleTicketFiles [oldDoneA] [reuploadA]
        (fun _ => Except.ok sampleAnnotation)) 2 0 = some TicketStatus.processing := by
  decide

/-- C4 amended: for any intake batch whose accepted filenames are
pairwise distinct and distinct from every receipt name already in the
session, every receipt position that has reached done or error keeps
that status across every pair of successive collections of the run;
with a reused filename the run instead resets every same-named receipt
to processing, as the counterexample shows. -/
theorem claim_C4_amended_terminal_stable (ts : List Ticket) (files : List FileInfo)
    (annot : Nat → Except Unit TicketData)
    (h1 : ((files.filter fileAccepted).map (fun f => f.name)).Nodup)
    (h2 : ∀ f ∈ files.filter fileAccepted, ∀ t ∈ ts, t.name ≠ f.name) :
    List.Chain' adjStable (handleTicketFiles ts files annot).states := by
  by_cases hacc : (files.filter fileAccepted).isEmpty = true
  · simp [handleTicketFiles, hacc]
  · simp only [handleTicketFiles, hacc, Bool.false_eq_true, if_false, if_neg]
    rw [List.chain'_cons]
    constructor
    · intro i t u ht hu hterm
      obtain ⟨hlen, _⟩ := List.get?_eq_some.mp ht
      rw [List.get?_append hlen, ht] at hu
      simp only [Option.some.injEq] at hu
      rw [← hu]
    · apply runEntries_chain
      · rw [entries_names]
        exact h1
      · intro e he i t ht hname
        rcases List.mem_map.mp he with ⟨f, hf, rfl⟩
        by_cases hi : i < ts.length
        · rw [List.get?_append hi] at ht
          exact absurd hname (h2 f hf t (List.get?_mem ht))
        · rw [List.get?_append_right (Nat.le_of_not_lt hi)] at ht
          rcases List.mem_map.mp (List.get?_mem ht) with ⟨g, hg, rfl⟩
          rfl

/-- Witness for the amended claim C4: a batch with a fresh filename
over a session holding a done receipt. -/
theorem claim_C4_amended_terminal_stable_witness :
    List.Chain' adjStable
      (handleTicketFiles [oldDoneA] [goodPng]
        (fun _ => Except.ok sampleAnnotation)).states :=
  claim_C4_amended_terminal_stable [oldDoneA] [goodPng]
    (fun _ => Except.ok sampleAnnotation) (by decide) (by decide)

/-- C8 counterexample: a batch mixing an accepted image with a plain
text file raises no warning at all, although it contains a
non-accepted file; the claimed single warning per such batch does not
happen. -/
theorem claim_C8_counterexample :
    fileAccepted badTxt = false ∧
    (handleTicketFiles [] [goodPng, badTxt] (fun _ => Except.error ())).warned
      = false := by
  decide

/-- C8 amended: only files with an image or PDF media type are
accepted; the single batch warning is raised exactly when no file of
the batch is acceptable; and every collection recorded after the
pre-run snapshot holds exactly the prior receipts followed by the
accepted files, so a rejected file never becomes a receipt (the mixed
batch of the counterexample drops its other files silently, without
the claimed warning). -/
theorem claim_C8_amended_filtering (ts : List Ticket) (files : List FileInfo)
    (annot : Nat → Except Unit TicketData) :
    ((handleTicketFiles ts files annot).warned = true ↔
        files.filter fileAccepted = []) ∧
    (∀ s ∈ ((handleTicketFiles ts files annot).states).tail,
        s.map (fun t => t.name)
          = ts.map (fun t => t.name)
              ++ (files.filter fileAccepted).map (fun f => f.name)) := by
  by_cases hacc : (files.filter fileAccepted).isEmpty = true
  · have hemp : files.filter fileAccepted = [] := by
      simpa using hacc
    constructor
    · simp [handleTicketFiles, hacc, hemp]
    · intro s hs
      simp [handleTicketFiles, hacc] at hs
  · have hne : ¬ files.filter fileAccepted = [] := by
      intro he
      rw [he] at hacc
      exact hacc rfl
    constructor
    · simp [handleTicketFiles, hacc, hne]
    · intro s hs
      simp only [handleTicketFiles, hacc, Bool.false_eq_true, if_false, if_neg,
        List.tail_cons, List.mem_cons] at hs
      rcases hs with rfl | hs2
      · rw [List.map_append, entries_names]
      · rw [runEntries_names _ _ _ s hs2, List.map_append, entries_names]

/-- Witness for the amended claim C8 at the mixed batch. -/
theorem claim_C8_amended_filtering_witness :
    ((handleTicketFiles [] [goodPng, badTxt] (fun _ => Except.error ())).warned = true ↔
        [goodPng, badTxt].filter fileAccepted = []) ∧
    (∀ s ∈ ((handleTicketFiles [] [goodPng, badTxt]
          (fun _ => Except.error ())).states).tail,
        s.map (fun t => t.name)
          = ([] : List Ticket).map (fun t => t.name)
              ++ ([goodPng, badTxt].filter fileAccepted).map (fun f => f.name)) :=
  claim_C8_amended_filtering [] [goodPng, badTxt] (fun _ => Except.error ())

end ExpenseMatch
